import Mathlib

/-!
Verification of the video composition engine in `src/video/video_editor.py`
(class `VideoEditor`).  The Python code is shallowly embedded: durations and
float arithmetic are modelled on `ℚ`, Python `int()` truncation and `//` floor
division are modelled explicitly, fallible operations return `Option`/`Except`,
and the scene loop / progress reporting are modelled as pure list recursions.
-/

namespace VideoEditor

/-- Python `int()` applied to a (real-valued) expression: truncation toward
zero, modelled on `ℚ`. -/
def pyint (q : ℚ) : ℤ := if 0 ≤ q then ⌊q⌋ else ⌈q⌉

theorem pyint_of_nonneg {q : ℚ} (h : 0 ≤ q) : pyint q = ⌊q⌋ := by
  simp [pyint, h]

theorem le_pyint {m : ℤ} {q : ℚ} (h : (m : ℚ) ≤ q) : m ≤ pyint q := by
  unfold pyint
  split
  · exact Int.le_floor.mpr h
  · exact_mod_cast h.trans (Int.le_ceil q)

theorem pyint_le {m : ℤ} {q : ℚ} (h : q ≤ (m : ℚ)) : pyint q ≤ m := by
  unfold pyint
  split
  · exact (Int.floor_le_floor h).trans (by simp)
  · exact Int.ceil_le.mpr h

theorem pyint_nonneg {q : ℚ} (h : 0 ≤ q) : 0 ≤ pyint q :=
  le_pyint (by exact_mod_cast h)

theorem pyint_mono_of_nonneg {p q : ℚ} (hp : 0 ≤ p) (h : p ≤ q) :
    pyint p ≤ pyint q := by
  rw [pyint_of_nonneg hp, pyint_of_nonneg (hp.trans h)]
  exact Int.floor_le_floor h

/-- Helper facts about halving a nonnegative integer with Python `//`
(floor division, `Int.fdiv`). -/
theorem fdiv_two_nonneg {x : ℤ} (h : 0 ≤ x) : 0 ≤ x.fdiv 2 := by
  rw [Int.fdiv_eq_ediv _ (by norm_num)]
  exact Int.ediv_nonneg h (by norm_num)

theorem fdiv_two_le {x : ℤ} (h : 0 ≤ x) : x.fdiv 2 ≤ x := by
  rw [Int.fdiv_eq_ediv _ (by norm_num)]
  exact Int.ediv_le_self 2 h

theorem two_mul_fdiv_two_le {x : ℤ} (_h : 0 ≤ x) : 2 * x.fdiv 2 ≤ x := by
  rw [Int.fdiv_eq_ediv _ (by norm_num)]
  have := Int.ediv_add_emod x 2
  have hm : 0 ≤ x % 2 := Int.emod_nonneg x (by norm_num)
  omega

/-! ## Background track loop-then-truncate derivation

Lines 294-311 (background video) and 330-345 (background music) share one
pattern: if the source is shorter than the target, concatenate
`int(target/source) + 1` copies, then `subclip(0, target)`; otherwise just
`subclip(0, target)`.  `subclip` is modelled as returning `none` when the
requested end time exceeds the clip length (the media library cannot read
frames past the end; such a failure would be caught by the surrounding
`except` and the optional layer skipped). -/

/-- Duration of `clip.subclip(0, t_end)` for a clip of length
`clip_duration`, or `none` when the request extends past the end. -/
def subclipTo (clip_duration t_end : ℚ) : Option ℚ :=
  if t_end ≤ clip_duration then some t_end else none

/-- Duration of the background track derived from a source of length
`source_duration` for a timeline of length `target_duration`
(lines 297-308 for video, 334-345 for music). -/
def loopTruncate (source_duration target_duration : ℚ) : Option ℚ :=
  if source_duration < target_duration then
    let loop_count : ℤ := pyint (target_duration / source_duration) + 1
    subclipTo ((loop_count : ℚ) * source_duration) target_duration
  else
    subclipTo source_duration target_duration

theorem loopTruncate_eq_target {d D l : ℚ} (h : loopTruncate d D = some l) :
    l = D := by
  simp only [loopTruncate, subclipTo] at h
  split at h <;> split at h <;> simp_all

/-- C3: for any background asset of positive duration `d` and any positive
target duration `D`, the loop-then-truncate derivation succeeds and yields a
track of duration exactly `D` — in particular the loop count
`int(D/d) + 1` always suffices, and the truncation is exact, covering
`D == d`, `D < d` and `D` slightly above a multiple of `d`. -/
theorem loopTruncate_exact (d D : ℚ) (hd : 0 < d) (hD : 0 < D) :
    loopTruncate d D = some D := by
  unfold loopTruncate subclipTo
  split
  · next hlt =>
    have hq : 0 ≤ D / d := le_of_lt (div_pos hD hd)
    rw [pyint_of_nonneg hq]
    have hfl : D / d < (⌊D / d⌋ : ℚ) + 1 := Int.lt_floor_add_one (D / d)
    have : D < ((⌊D / d⌋ : ℚ) + 1) * d := by
      calc D = D / d * d := by field_simp
      _ < ((⌊D / d⌋ : ℚ) + 1) * d := by
          exact mul_lt_mul_of_pos_right hfl hd
    have hle : D ≤ ((⌊D / d⌋ : ℚ) + 1) * d := le_of_lt this
    rw [if_pos (by push_cast; linarith)]
  · next hge =>
    rw [if_pos (by linarith [not_lt.mp hge])]

/-- Witness for C3 at `d = 2`, `D = 5` (a target slightly above a multiple
of the source duration). -/
theorem loopTruncate_exact_witness : loopTruncate 2 5 = some 5 :=
  loopTruncate_exact 2 5 (by decide) (by decide)

/-! ## Random animation-assignment mode

Lines 39-45 define the five animation kinds; lines 219-230 pick, for each
scene built in random mode, a kind at random from the five kinds minus the
kind of the immediately preceding built scene, falling back to the full list
only if that filter empties the candidates.  `random.choice` is modelled as
selection at an arbitrary index `r` (reduced modulo the list length). -/

def ANIMATION_TYPES : List String :=
  ["zoom_in", "slide_left", "slide_right", "slide_up", "slide_down"]

/-- Animation kind chosen for one scene in random mode (lines 221-229),
given the kind recorded for the previous scene and a random draw `r`. -/
def chooseAnimation (previous_animation_type : Option String) (r : ℕ) : String :=
  let available_animations :=
    ANIMATION_TYPES.filter (fun anim => !(some anim == previous_animation_type))
  if h : available_animations = [] then
    ANIMATION_TYPES.get ⟨r % ANIMATION_TYPES.length, Nat.mod_lt r (by decide)⟩
  else
    available_animations.get
      ⟨r % available_animations.length,
        Nat.mod_lt r (List.length_pos.mpr h)⟩

/-- Kinds assigned to the successively built scenes of one render in random
mode (line 230 records each choice as the next `previous_animation_type`). -/
def assignAnimations (previous_animation_type : Option String) :
    List ℕ → List String
  | [] => []
  | r :: rs =>
    let a := chooseAnimation previous_animation_type r
    a :: assignAnimations (some a) rs

theorem chooseAnimation_ne (p : String) (r : ℕ) :
    chooseAnimation (some p) r ≠ p := by
  unfold chooseAnimation
  have hmem : ∀ (q : String),
      q ∈ ANIMATION_TYPES.filter (fun anim => !(some anim == some p)) → q ≠ p := by
    intro q hq
    have := List.of_mem_filter hq
    simpa using this
  have hne : ANIMATION_TYPES.filter (fun anim => !(some anim == some p)) ≠ [] := by
    have : "zoom_in" ≠ p ∨ "slide_left" ≠ p := by
      by_cases h : p = "zoom_in"
      · right; simp [h]
      · left; exact fun hc => h hc.symm
    rcases this with h | h
    · have hz : "zoom_in" ∈
          ANIMATION_TYPES.filter (fun anim => !(some anim == some p)) :=
        List.mem_filter.mpr ⟨by simp [ANIMATION_TYPES], by simp [h]⟩
      exact List.ne_nil_of_mem hz
    · have hz : "slide_left" ∈
          ANIMATION_TYPES.filter (fun anim => !(some anim == some p)) :=
        List.mem_filter.mpr ⟨by simp [ANIMATION_TYPES], by simp [h]⟩
      exact List.ne_nil_of_mem hz
  rw [dif_neg hne]
  exact hmem _ (List.get_mem _ _ _)

/-- C4: in random animation-assignment mode no two consecutively built scene
clips receive the same animation kind — for every sequence of random draws
and every starting state, the assigned kinds form a chain of pairwise-distinct
neighbours (the exclusion of the preceding kind leaves four of the five kinds,
so the full-set fallback never applies). -/
theorem assignAnimations_no_consecutive_repeat
    (previous_animation_type : Option String) (rs : List ℕ) :
    List.Chain' (· ≠ ·) (assignAnimations previous_animation_type rs) := by
  induction rs generalizing previous_animation_type with
  | nil => simp [assignAnimations]
  | cons r rs ih =>
    rw [assignAnimations]
    apply List.chain'_cons'.mpr
    refine ⟨?_, ih _⟩
    intro b hb
    cases rs with
    | nil => simp [assignAnimations] at hb
    | cons r2 rs2 =>
      simp only [assignAnimations, List.head?_cons, Option.mem_def,
        Option.some.injEq] at hb
      subst hb
      exact (chooseAnimation_ne _ r2).symm

/-! ## Subtitle text layout (`_create_subtitle_clip`, lines 554-709)

The pixel width measurement `font.getbbox(line)[2] - font.getbbox(line)[0]`
is abstracted as a function `w : List Char → ℤ`; the wrap loop, the effective
maximum width and the image-size computation are embedded exactly. -/

/-- One iteration of the greedy character wrap (lines 623-637): append the
next character to the running line if the candidate still fits, otherwise
commit the running line (when non-empty) and restart from the character. -/
def wrapStep (w : List Char → ℤ) (max_width : ℤ)
    (st : List (List Char) × List Char) (char : Char) :
    List (List Char) × List Char :=
  let test_line := st.2 ++ [char]
  let text_width := w test_line
  if text_width ≤ max_width then (st.1, test_line)
  else if st.2 = [] then (st.1, [char])
  else (st.1 ++ [st.2], [char])

/-- Greedy character-by-character line wrap (lines 619-640): fold `wrapStep`
over the text, then flush the final running line if non-empty. -/
def wrapLines (w : List Char → ℤ) (max_width : ℤ) (text : List Char) :
    List (List Char) :=
  let st := text.foldl (wrapStep w max_width) ([], [])
  if st.2 = [] then st.1 else st.1 ++ [st.2]

/-- Committed or pending lines never exceed the maximum width unless they
consist of one single character that alone exceeds it. -/
def lineOk (w : List Char → ℤ) (max_width : ℤ) (line : List Char) : Prop :=
  w line ≤ max_width ∨ (line.length = 1 ∧ max_width < w line)

theorem wrap_foldl_invariant (w : List Char → ℤ) (max_width : ℤ)
    (text : List Char) :
    ∀ st : List (List Char) × List Char,
      (∀ l ∈ st.1, lineOk w max_width l) →
      (st.2 = [] ∨ lineOk w max_width st.2) →
      (∀ l ∈ (text.foldl (wrapStep w max_width) st).1, lineOk w max_width l) ∧
        ((text.foldl (wrapStep w max_width) st).2 = [] ∨
          lineOk w max_width (text.foldl (wrapStep w max_width) st).2) := by
  induction text with
  | nil => intro st h1 h2; exact ⟨h1, h2⟩
  | cons c cs ih =>
    intro st h1 h2
    rw [List.foldl_cons]
    apply ih
    · intro l hl
      unfold wrapStep at hl
      dsimp only at hl
      split at hl
      · exact h1 l hl
      · split at hl
        · exact h1 l hl
        · rcases List.mem_append.mp hl with hl | hl
          · exact h1 l hl
          · rcases h2 with h2 | h2
            · simp_all
            · simp only [List.mem_singleton] at hl
              subst hl; exact h2
    · unfold wrapStep
      dsimp only
      split
      · next hle => right; left; exact hle
      · rcases le_or_lt (w [c]) max_width with hc | hc
        · split <;> · right; left; exact hc
        · split <;> · right; right; exact ⟨rfl, hc⟩

/-- C6: the greedy character wrap never produces a line whose measured width
exceeds the maximum width, except for a line consisting of a single character
whose measured width alone exceeds it. -/
theorem wrapLines_width_bounded (w : List Char → ℤ) (max_width : ℤ)
    (text : List Char) :
    ∀ line ∈ wrapLines w max_width text,
      w line ≤ max_width ∨ (line.length = 1 ∧ max_width < w line) := by
  intro line hline
  have hinv := wrap_foldl_invariant w max_width text ([], [])
    (by intro l hl; simp at hl) (Or.inl rfl)
  unfold wrapLines at hline
  dsimp only at hline
  split at hline
  · exact hinv.1 line hline
  · next hne =>
    rcases List.mem_append.mp hline with hl | hl
    · exact hinv.1 line hl
    · simp only [List.mem_singleton] at hl
      subst hl
      rcases hinv.2 with h | h
      · exact absurd h hne
      · exact h

/-- Witness for C6 with the width measure `w = number of characters`,
`max_width = 1` and the text `"ab"`: the produced line `"a"` fits. -/
theorem wrapLines_width_bounded_witness :
    let w : List Char → ℤ := fun l => (l.length : ℤ)
    w [Char.ofNat 97] ≤ 1 ∨
      ([Char.ofNat 97].length = 1 ∧ 1 < w [Char.ofNat 97]) :=
  wrapLines_width_bounded (fun l => (l.length : ℤ)) 1
    [Char.ofNat 97, Char.ofNat 98] [Char.ofNat 97] (by decide)

/-- Style settings read by `_create_subtitle_clip` (lines 574-581):
`fontsize`, `stroke_width` and the configured wrap width `style["size"][0]`. -/
structure SubtitleStyle where
  fontsize : ℕ
  stroke_width : ℤ
  size_w : ℤ
deriving DecidableEq

/-- Geometry produced by `_create_subtitle_clip` for one subtitle. -/
structure SubtitleLayout where
  max_width : ℤ
  lines : List (List Char)
  img_width : ℕ
  img_height : ℤ
  y_position : ℤ
deriving DecidableEq

/-- Layout computation of `_create_subtitle_clip` (lines 574-582, 617-651,
697-698): effective wrap width, wrapped lines, image size and vertical
position.  `video_width`/`video_height` are `self.width`/`self.height`. -/
def create_subtitle_layout (video_width video_height : ℕ)
    (style : SubtitleStyle) (w : List Char → ℤ) (text : List Char)
    (bottom_offset : ℤ) : SubtitleLayout :=
  let margin : ℤ := 100
  let stroke_margin : ℤ := 2 * max style.stroke_width 1
  let max_width := min style.size_w ((video_width : ℤ) - margin - stroke_margin)
  let lines := wrapLines w max_width text
  let line_height : ℤ := pyint ((style.fontsize : ℚ) * 1.2)
  let padding : ℤ := 20
  let img_height := (lines.length : ℤ) * line_height + padding * 2
  let img_width := video_width
  { max_width := max_width, lines := lines, img_width := img_width,
    img_height := img_height,
    y_position := (video_height : ℤ) - img_height - bottom_offset }

/-- C10: the wrap width actually used is the minimum of the configured width
and `video_width - 100 - 2*max(stroke_width, 1)`; in particular it never
exceeds that bound, and the wrapped lines are computed against exactly this
reduced width. -/
theorem subtitle_effective_wrap_width (video_width video_height : ℕ)
    (style : SubtitleStyle) (w : List Char → ℤ) (text : List Char)
    (bottom_offset : ℤ) :
    (create_subtitle_layout video_width video_height style w text
        bottom_offset).max_width
        = min style.size_w
            ((video_width : ℤ) - 100 - 2 * max style.stroke_width 1) ∧
      (create_subtitle_layout video_width video_height style w text
        bottom_offset).max_width
        ≤ (video_width : ℤ) - 100 - 2 * max style.stroke_width 1 ∧
      (create_subtitle_layout video_width video_height style w text
        bottom_offset).lines
        = wrapLines w
            (min style.size_w
              ((video_width : ℤ) - 100 - 2 * max style.stroke_width 1)) text := by
  refine ⟨rfl, ?_, rfl⟩
  exact min_le_right _ _

/-- C7 (amended): the rendered subtitle image is `video_width` pixels wide
and `line_count * int(fontsize * 1.2) + 2 * 20` pixels high, where `int` is
truncation toward zero, i.e. the floor of the nonnegative product — not its
ceiling. -/
theorem subtitle_image_size (video_width video_height : ℕ)
    (style : SubtitleStyle) (w : List Char → ℤ) (text : List Char)
    (bottom_offset : ℤ) :
    (create_subtitle_layout video_width video_height style w text
        bottom_offset).img_height
        = ((create_subtitle_layout video_width video_height style w text
            bottom_offset).lines.length : ℤ)
            * ⌊(style.fontsize : ℚ) * 1.2⌋ + 2 * 20 ∧
      (create_subtitle_layout video_width video_height style w text
        bottom_offset).img_width = video_width := by
  constructor
  · have h : (0 : ℚ) ≤ (style.fontsize : ℚ) * 1.2 := by positivity
    simp [create_subtitle_layout, pyint_of_nonneg h, mul_comm]
  · rfl

/-- Image height as the specification words it: with the ceiling of
`font_size * 1.2` as the line height. -/
def spec_subtitle_img_height (fontsize : ℕ) (line_count : ℕ) : ℤ :=
  (line_count : ℤ) * ⌈(fontsize : ℚ) * 1.2⌉ + 2 * 20

/-- Counterexample to C7 as stated: at `font_size = 7` the code computes a
line height of `int(8.4) = 8` while the claimed formula uses
`ceil(8.4) = 9`, so for a one-line subtitle the heights differ (48 vs 49). -/
theorem subtitle_image_height_ne_spec :
    (create_subtitle_layout 1080 1920 ⟨7, 2, 980⟩
        (fun l => (l.length : ℤ)) [Char.ofNat 97] 50).img_height
      ≠ spec_subtitle_img_height 7
          (create_subtitle_layout 1080 1920 ⟨7, 2, 980⟩
            (fun l => (l.length : ℤ)) [Char.ofNat 97] 50).lines.length := by
  have hlines : (create_subtitle_layout 1080 1920 ⟨7, 2, 980⟩
      (fun l => (l.length : ℤ)) [Char.ofNat 97] 50).lines
      = [[Char.ofNat 97]] := by
    simp only [create_subtitle_layout]
    norm_num [wrapLines, wrapStep]
  have hh : (create_subtitle_layout 1080 1920 ⟨7, 2, 980⟩
      (fun l => (l.length : ℤ)) [Char.ofNat 97] 50).img_height
      = 1 * pyint ((7 : ℚ) * 1.2) + 20 * 2 := by
    simp only [create_subtitle_layout] at hlines ⊢
    rw [hlines]
    norm_num
  rw [hh, hlines]
  have hc : (⌈(42 : ℚ) / 5⌉ : ℤ) = 9 := by
    rw [Int.ceil_eq_iff]
    norm_num
  norm_num [spec_subtitle_img_height, pyint, Int.floor_eq_iff, hc]

/-! ## Scene animation crop geometry (`_apply_animation`, lines 406-552)

The image is first resized to `int(width*scale) × int(height*scale)`; each
frame is then cropped to a rectangle computed from the elapsed-time fraction
`t/duration`.  The crop rectangle computed by each per-frame closure is
embedded exactly; frame pixel contents are outside the model. -/

/-- Crop rectangle `(left, top, right, bottom)` passed to `img.crop`. -/
structure CropRect where
  left : ℤ
  top : ℤ
  right : ℤ
  bottom : ℤ
deriving DecidableEq

/-- Crop rectangle computed by `_apply_animation` for animation kind
`animation_type` at time `t`, for a target size `width × height` and scale
factor `scale` (lines 426-548).  Returns `none` for the default branch
(line 552), which performs a static resize and no crop. -/
def apply_animation_crop (width height : ℕ) (scale : ℚ)
    (animation_type : String) (duration t : ℚ) : Option CropRect :=
  let scaled_width := pyint ((width : ℚ) * scale)
  let scaled_height := pyint ((height : ℚ) * scale)
  let move_x := (scaled_width - (width : ℤ)).fdiv 2
  let move_y := (scaled_height - (height : ℤ)).fdiv 2
  let output_width : ℤ := (width : ℤ)
  let output_height : ℤ := (height : ℤ)
  let progress := t / duration
  if animation_type = "zoom_in" then
    let current_scale := 1 + (scale - 1) * progress
    let crop_w := pyint ((output_width : ℚ) / current_scale * scale)
    let crop_h := pyint ((output_height : ℚ) / current_scale * scale)
    let left := (scaled_width - crop_w).fdiv 2
    let top := (scaled_height - crop_h).fdiv 2
    some ⟨left, top, left + crop_w, top + crop_h⟩
  else if animation_type = "slide_left" then
    let offset_x := pyint ((move_x : ℚ) * (1 - 2 * progress))
    let left := move_x - offset_x
    let top := move_y
    some ⟨left, top, left + output_width, top + output_height⟩
  else if animation_type = "slide_right" then
    let offset_x := pyint (-(move_x : ℚ) + (move_x : ℚ) * 2 * progress)
    let left := move_x - offset_x
    let top := move_y
    some ⟨left, top, left + output_width, top + output_height⟩
  else if animation_type = "slide_up" then
    let offset_y := pyint ((move_y : ℚ) * (1 - 2 * progress))
    let left := move_x
    let top := move_y - offset_y
    some ⟨left, top, left + output_width, top + output_height⟩
  else if animation_type = "slide_down" then
    let offset_y := pyint (-(move_y : ℚ) + (move_y : ℚ) * 2 * progress)
    let left := move_x
    let top := move_y - offset_y
    some ⟨left, top, left + output_width, top + output_height⟩
  else none

/-- A value truncated from a symmetrically bounded argument stays within the
integer bound. -/
theorem pyint_abs_le {m : ℤ} {q : ℚ}
    (h1 : -(m : ℚ) ≤ q) (h2 : q ≤ (m : ℚ)) :
    -m ≤ pyint q ∧ pyint q ≤ m := by
  constructor
  · exact le_pyint (m := -m) (by push_cast; linarith)
  · exact pyint_le h2

/-- Bounds shared by the four slide animations on the moving axis: with
margin `m = (scaled - out) // 2` and any offset truncated from a value in
`[-m, m]`, the crop window satisfies `0 ≤ m - offset` and
`m - offset + out ≤ scaled`. -/
theorem slide_axis_bounds {out scaled : ℤ} {q : ℚ}
    (hout : out ≤ scaled)
    (h1 : -(((scaled - out).fdiv 2 : ℤ) : ℚ) ≤ q)
    (h2 : q ≤ (((scaled - out).fdiv 2 : ℤ) : ℚ)) :
    0 ≤ (scaled - out).fdiv 2 - pyint q ∧
      (scaled - out).fdiv 2 - pyint q + out ≤ scaled := by
  have hd : 0 ≤ scaled - out := by omega
  have habs := pyint_abs_le h1 h2
  have h2m := two_mul_fdiv_two_le hd
  omega

/-- Bounds on the fixed axis of a slide animation: `0 ≤ m` and
`m + out ≤ scaled`. -/
theorem fixed_axis_bounds {out scaled : ℤ} (hout : out ≤ scaled) :
    0 ≤ (scaled - out).fdiv 2 ∧ (scaled - out).fdiv 2 + out ≤ scaled := by
  have hd : 0 ≤ scaled - out := by omega
  have := fdiv_two_le hd
  exact ⟨fdiv_two_nonneg hd, by omega⟩

/-- C8: for every animation kind, every scale above 1, every positive
duration and every time in `[0, duration]`, the per-frame crop rectangle
lies entirely within the scaled canvas
`int(width*scale) × int(height*scale)`. -/
theorem animation_crop_within_canvas (width height : ℕ) (scale : ℚ)
    (animation_type : String) (duration t : ℚ) (rect : CropRect)
    (hs : 1 < scale) (hd : 0 < duration) (ht0 : 0 ≤ t) (ht1 : t ≤ duration)
    (hr : apply_animation_crop width height scale animation_type duration t
      = some rect) :
    0 ≤ rect.left ∧ 0 ≤ rect.top ∧
      rect.right ≤ pyint ((width : ℚ) * scale) ∧
      rect.bottom ≤ pyint ((height : ℚ) * scale) := by
  have hp0 : 0 ≤ t / duration := div_nonneg ht0 (le_of_lt hd)
  have hp1 : t / duration ≤ 1 := (div_le_one hd).mpr ht1
  have hsw : (width : ℤ) ≤ pyint ((width : ℚ) * scale) := by
    apply le_pyint
    push_cast
    nlinarith [Nat.cast_nonneg (α := ℚ) width]
  have hsh : (height : ℤ) ≤ pyint ((height : ℚ) * scale) := by
    apply le_pyint
    push_cast
    nlinarith [Nat.cast_nonneg (α := ℚ) height]
  simp only [apply_animation_crop, Int.cast_natCast] at hr
  set sw := pyint ((width : ℚ) * scale) with hswdef
  set sh := pyint ((height : ℚ) * scale) with hshdef
  split_ifs at hr
  -- zoom_in
  · have hcs1 : (1 : ℚ) ≤ 1 + (scale - 1) * (t / duration) := by nlinarith
    have hargw0 : (0 : ℚ) ≤
        (width : ℚ) / (1 + (scale - 1) * (t / duration)) * scale := by
      have h0 : (0:ℚ) < 1 + (scale - 1) * (t / duration) := by linarith
      have := Nat.cast_nonneg (α := ℚ) width
      positivity
    have hargwle : (width : ℚ) / (1 + (scale - 1) * (t / duration)) * scale
        ≤ (width : ℚ) * scale := by
      have hw1 : (width : ℚ) / (1 + (scale - 1) * (t / duration))
          ≤ (width : ℚ) :=
        div_le_self (Nat.cast_nonneg width) hcs1
      nlinarith
    have hargh0 : (0 : ℚ) ≤
        (height : ℚ) / (1 + (scale - 1) * (t / duration)) * scale := by
      have h0 : (0:ℚ) < 1 + (scale - 1) * (t / duration) := by linarith
      have := Nat.cast_nonneg (α := ℚ) height
      positivity
    have harghle : (height : ℚ) / (1 + (scale - 1) * (t / duration)) * scale
        ≤ (height : ℚ) * scale := by
      have hh1 : (height : ℚ) / (1 + (scale - 1) * (t / duration))
          ≤ (height : ℚ) :=
        div_le_self (Nat.cast_nonneg height) hcs1
      nlinarith
    have hcw0 := pyint_nonneg hargw0
    have hcwle := pyint_mono_of_nonneg hargw0 hargwle
    have hch0 := pyint_nonneg hargh0
    have hchle := pyint_mono_of_nonneg hargh0 harghle
    obtain rfl : rect = _ := (Option.some.inj hr).symm
    dsimp only
    rw [← hswdef] at hcwle
    rw [← hshdef] at hchle
    set cw := pyint ((width : ℚ) / (1 + (scale - 1) * (t / duration)) * scale)
      with hcwdef
    set ch := pyint ((height : ℚ) / (1 + (scale - 1) * (t / duration)) * scale)
      with hchdef
    have hl0 : 0 ≤ (sw - cw).fdiv 2 := fdiv_two_nonneg (by omega)
    have hlle : (sw - cw).fdiv 2 ≤ sw - cw := fdiv_two_le (by omega)
    have htp0 : 0 ≤ (sh - ch).fdiv 2 := fdiv_two_nonneg (by omega)
    have htle : (sh - ch).fdiv 2 ≤ sh - ch := fdiv_two_le (by omega)
    exact ⟨hl0, htp0, by omega, by omega⟩
  -- slide_left
  · obtain rfl : rect = _ := (Option.some.inj hr).symm
    dsimp only
    have hmx : 0 ≤ (sw - (width : ℤ)).fdiv 2 := fdiv_two_nonneg (by omega)
    have hmxq : (0 : ℚ) ≤ (((sw - (width : ℤ)).fdiv 2 : ℤ) : ℚ) := by
      exact_mod_cast hmx
    have hb := @slide_axis_bounds (width : ℤ) sw
      ((((sw - (width : ℤ)).fdiv 2 : ℤ) : ℚ) * (1 - 2 * (t / duration)))
      hsw (by nlinarith) (by nlinarith)
    have hf := @fixed_axis_bounds (height : ℤ) sh hsh
    exact ⟨hb.1, hf.1, hb.2, by omega⟩
  -- slide_right
  · obtain rfl : rect = _ := (Option.some.inj hr).symm
    dsimp only
    have hmx : 0 ≤ (sw - (width : ℤ)).fdiv 2 := fdiv_two_nonneg (by omega)
    have hmxq : (0 : ℚ) ≤ (((sw - (width : ℤ)).fdiv 2 : ℤ) : ℚ) := by
      exact_mod_cast hmx
    have hb := @slide_axis_bounds (width : ℤ) sw
      (-(((sw - (width : ℤ)).fdiv 2 : ℤ) : ℚ)
        + (((sw - (width : ℤ)).fdiv 2 : ℤ) : ℚ) * 2 * (t / duration))
      hsw (by nlinarith) (by nlinarith)
    have hf := @fixed_axis_bounds (height : ℤ) sh hsh
    exact ⟨hb.1, hf.1, hb.2, by omega⟩
  -- slide_up
  · obtain rfl : rect = _ := (Option.some.inj hr).symm
    dsimp only
    have hmy : 0 ≤ (sh - (height : ℤ)).fdiv 2 := fdiv_two_nonneg (by omega)
    have hmyq : (0 : ℚ) ≤ (((sh - (height : ℤ)).fdiv 2 : ℤ) : ℚ) := by
      exact_mod_cast hmy
    have hb := @slide_axis_bounds (height : ℤ) sh
      ((((sh - (height : ℤ)).fdiv 2 : ℤ) : ℚ) * (1 - 2 * (t / duration)))
      hsh (by nlinarith) (by nlinarith)
    have hf := @fixed_axis_bounds (width : ℤ) sw hsw
    exact ⟨hf.1, hb.1, by omega, hb.2⟩
  -- slide_down
  · obtain rfl : rect = _ := (Option.some.inj hr).symm
    dsimp only
    have hmy : 0 ≤ (sh - (height : ℤ)).fdiv 2 := fdiv_two_nonneg (by omega)
    have hmyq : (0 : ℚ) ≤ (((sh - (height : ℤ)).fdiv 2 : ℤ) : ℚ) := by
      exact_mod_cast hmy
    have hb := @slide_axis_bounds (height : ℤ) sh
      (-(((sh - (height : ℤ)).fdiv 2 : ℤ) : ℚ)
        + (((sh - (height : ℤ)).fdiv 2 : ℤ) : ℚ) * 2 * (t / duration))
      hsh (by nlinarith) (by nlinarith)
    have hf := @fixed_axis_bounds (width : ℤ) sw hsw
    exact ⟨hf.1, hb.1, by omega, hb.2⟩

/-- Evaluation of the slide-left crop rectangle at `width = 100`,
`height = 200`, `scale = 2`, `duration = 2`, `t = 1`. -/
theorem apply_animation_crop_slide_left_eval :
    apply_animation_crop 100 200 2 "slide_left" 2 1
      = some ⟨50, 100, 150, 300⟩ := by
  have hsw : pyint ((100 : ℚ) * 2) = 200 := by
    rw [pyint_of_nonneg (by norm_num)]
    norm_num [Int.floor_eq_iff]
  have hsh : pyint ((200 : ℚ) * 2) = 400 := by
    rw [pyint_of_nonneg (by norm_num)]
    norm_num [Int.floor_eq_iff]
  have hpy : pyint ((((200 : ℤ) - 100).fdiv 2 : ℤ) * (1 - 2 * ((1 : ℚ) / 2)))
      = 0 := by
    have h0 : ((((200 : ℤ) - 100).fdiv 2 : ℤ) : ℚ) * (1 - 2 * ((1 : ℚ) / 2))
        = 0 := by norm_num
    rw [h0, pyint_of_nonneg le_rfl, Int.floor_zero]
  have hf1 : ((200 : ℤ) - 100).fdiv 2 = 50 := by decide
  have hf2 : ((400 : ℤ) - 200).fdiv 2 = 100 := by decide
  simp only [apply_animation_crop, Int.cast_natCast, Nat.cast_ofNat, hsw, hsh]
  norm_num [hpy, hf1, hf2]
  rw [if_neg (show ¬("slide_left" = "zoom_in") by decide)]
  have hpy0 : pyint 0 = 0 := by rw [pyint_of_nonneg le_rfl, Int.floor_zero]
  have hg1 : Int.fdiv 100 2 = 50 := by decide
  have hg2 : Int.fdiv 200 2 = 100 := by decide
  norm_num [hpy0, hg1, hg2]

/-- Witness for C8: the slide-left crop rectangle at `t = 1` of a 2-second
animation with scale 2 on a 100×200 target stays inside the 200×400 scaled
canvas. -/
theorem animation_crop_within_canvas_witness :
    (0 : ℤ) ≤ 50 ∧ (0 : ℤ) ≤ 100 ∧
      (150 : ℤ) ≤ pyint ((100 : ℚ) * 2) ∧
      (300 : ℤ) ≤ pyint ((200 : ℚ) * 2) :=
  animation_crop_within_canvas 100 200 2 "slide_left" 2 1 ⟨50, 100, 150, 300⟩
    (by decide) (by decide) (by decide) (by decide)
    apply_animation_crop_slide_left_eval

/-! ## The render pipeline (`create_video_from_script`, lines 79-404)

Scenes carry the fields the engine reads; asset maps are functions from the
scene number to an optional file.  A file records whether `path.exists()`
holds, the media duration obtained on loading, and whether loading/decoding
succeeds (relevant only for the optional background layers, whose failures
are caught and logged).  The encode step is external and modelled as
succeeding; the fatal error paths of the scene loop are the two `ValueError`
raises at lines 131-132 and 273-274. -/

/-- A filesystem asset as the engine observes it. -/
structure AssetFile where
  on_disk : Bool
  duration : ℚ
  decode_ok : Bool
deriving DecidableEq

/-- One scene of the script (the fields lines 168-173 read). -/
structure Scene where
  scene_number : ℕ
  duration : ℚ
  subtitle : String
deriving DecidableEq

/-- The script object (line 130 reads only `scenes`; `total_duration` is
carried but never read by the engine). -/
structure Script where
  scenes : List Scene
  total_duration : ℚ
deriving DecidableEq

/-- An asset map entry is usable when present and existing on disk
(lines 176-177 and 182-183). -/
def assetPresent (files : ℕ → Option AssetFile) (scene_number : ℕ) : Bool :=
  match files scene_number with
  | some f => f.on_disk
  | none => false

/-- A scene survives the loop iff both its image and its audio asset are
usable (lines 175-185). -/
def sceneHasAssets (image_files audio_files : ℕ → Option AssetFile)
    (s : Scene) : Bool :=
  assetPresent image_files s.scene_number &&
    assetPresent audio_files s.scene_number

/-- Duration of the audio asset of a scene (line 190). -/
def audioDuration (audio_files : ℕ → Option AssetFile) (s : Scene) : ℚ :=
  match audio_files s.scene_number with
  | some f => f.duration
  | none => 0

/-- A scene clip; its duration is set from the audio asset (line 245). -/
structure Clip where
  duration : ℚ
deriving DecidableEq

/-- The scene loop (lines 168-271): each scene with both assets usable
contributes one clip whose duration is the audio duration; a scene with a
missing asset is skipped with a warning naming its scene number. -/
def buildClips (image_files audio_files : ℕ → Option AssetFile) :
    List Scene → List Clip × List ℕ
  | [] => ([], [])
  | s :: rest =>
    let r := buildClips image_files audio_files rest
    if sceneHasAssets image_files audio_files s then
      ({ duration := audioDuration audio_files s } :: r.1, r.2)
    else
      (r.1, s.scene_number :: r.2)

/-- Running values of `current_step` after each `update_progress` call
(line 147), given the per-call increments. -/
def cumulativeSteps : List ℕ → ℕ → List ℕ
  | [], _ => []
  | i :: is, acc => (acc + i) :: cumulativeSteps is (acc + i)

/-- Fraction reported by one `update_progress` call (line 148):
`min(current_step / total_steps, 1.0)`. -/
def progressValue (total_steps current_step : ℕ) : ℚ :=
  min ((current_step : ℚ) / (total_steps : ℚ)) 1

/-- Sequence of fractions reported to the progress callback, given the
per-call step increments. -/
def progressFractions (total_steps : ℕ) (incs : List ℕ) : List ℚ :=
  (cumulativeSteps incs 0).map (progressValue total_steps)

/-- Whether an optional background asset is configured and on disk
(lines 137, 139, 284, 324). -/
def optionalPresent (o : Option AssetFile) : Bool :=
  match o with
  | some f => f.on_disk
  | none => false

/-- Background-video stage (lines 282-321): progress increments emitted and
resulting timeline duration.  On success the looped background (duration
exactly the target) is composited under the timeline, so the duration is the
maximum of the two; decode or subclip failures are caught and the stage is
skipped. -/
def bgVideoStage (bg_video : Option AssetFile) (total_duration : ℚ) :
    List ℕ × ℚ :=
  match bg_video with
  | none => ([], total_duration)
  | some f =>
    if f.on_disk then
      if f.decode_ok then
        match loopTruncate f.duration total_duration with
        | some looped => ([0, 1], max looped total_duration)
        | none => ([0], total_duration)
      else ([0], total_duration)
    else ([], total_duration)

/-- Background-music stage (lines 323-366): progress increments emitted.
Mixing audio never changes the video duration; failures are caught and the
stage is skipped. -/
def bgmStage (bgm : Option AssetFile) (total_duration : ℚ) : List ℕ :=
  match bgm with
  | none => []
  | some f =>
    if f.on_disk then
      if f.decode_ok then
        match loopTruncate f.duration total_duration with
        | some _ => [0, 1]
        | none => [0]
      else [0]
    else []

/-- Outcome of one render invocation: the duration of the produced video or
the message of the fatal error, along with the reported progress fractions
and the scene numbers skipped with a warning. -/
structure RenderResult where
  outcome : Except String ℚ
  progress : List ℚ
  skipped : List ℕ

/-- The render pipeline `create_video_from_script` (lines 79-404): fatal
error on an empty scene list (line 131) or an empty clip list (line 273);
otherwise the scene clips are concatenated (total duration the sum of the
clip durations), the optional background video and music layers are merged
best-effort, and the result is encoded. -/
def create_video_from_script (script : Script)
    (image_files audio_files : ℕ → Option AssetFile)
    (bg_video bgm : Option AssetFile) : RenderResult :=
  let scenes := script.scenes
  if scenes = [] then
    { outcome := .error "台本にシーンがありません", progress := [], skipped := [] }
  else
    let base_steps := scenes.length + 1 + 1
    let base_steps := if optionalPresent bg_video then base_steps + 1
      else base_steps
    let total_steps := if optionalPresent bgm then base_steps + 1
      else base_steps
    let built := buildClips image_files audio_files scenes
    let video_clips := built.1
    let scene_incs := video_clips.map (fun _ => 1)
    if video_clips = [] then
      { outcome := .error "動画クリップが作成されませんでした",
        progress := progressFractions total_steps scene_incs,
        skipped := built.2 }
    else
      let total_duration := (video_clips.map Clip.duration).sum
      let bg := bgVideoStage bg_video total_duration
      let final_duration := bg.2
      let bgm_incs := bgmStage bgm final_duration
      let incs := scene_incs ++ [0, 1] ++ bg.1 ++ bgm_incs ++ [0, 1]
      { outcome := .ok final_duration,
        progress := progressFractions total_steps incs,
        skipped := built.2 }

/-- The scene loop keeps exactly the scenes with both assets usable, each as
a clip timed by its audio asset, and records the scene numbers of the others
as skipped, in order. -/
theorem buildClips_eq (image_files audio_files : ℕ → Option AssetFile)
    (scenes : List Scene) :
    buildClips image_files audio_files scenes
      = ((scenes.filter (sceneHasAssets image_files audio_files)).map
          (fun s => { duration := audioDuration audio_files s }),
        (scenes.filter
          (fun s => !(sceneHasAssets image_files audio_files s))).map
          Scene.scene_number) := by
  induction scenes with
  | nil => rfl
  | cons s rest ih =>
    rw [buildClips, ih]
    by_cases h : sceneHasAssets image_files audio_files s
    · simp [h, List.filter_cons]
    · simp only [Bool.not_eq_true] at h
      simp [h, List.filter_cons]

/-- Merging the background video never changes the timeline duration: the
derived background has exactly the target duration, and compositing takes
the maximum of the layer durations. -/
theorem bgVideoStage_duration (bg_video : Option AssetFile)
    (total_duration : ℚ) :
    (bgVideoStage bg_video total_duration).2 = total_duration := by
  unfold bgVideoStage
  match bg_video with
  | none => rfl
  | some f =>
    dsimp only
    split
    · split
      · match hlt : loopTruncate f.duration total_duration with
        | some looped =>
          dsimp only
          rw [loopTruncate_eq_target hlt]
          exact max_self _
        | none => rfl
      · rfl
    · rfl

/-- Success case of the render shared by C1 and C2: when at least one scene
survives the loop, the render succeeds, its duration is the sum of the
surviving scenes' audio durations, and the skipped warnings name exactly the
scenes with a missing asset. -/
theorem create_ok_of_survivor (scenes : List Scene) (T : ℚ)
    (image_files audio_files : ℕ → Option AssetFile)
    (bg_video bgm : Option AssetFile)
    (hne : scenes ≠ [])
    (hsur : scenes.filter (sceneHasAssets image_files audio_files) ≠ []) :
    (create_video_from_script ⟨scenes, T⟩ image_files audio_files bg_video
        bgm).outcome
        = .ok (((scenes.filter (sceneHasAssets image_files audio_files)).map
            (audioDuration audio_files)).sum) ∧
      (create_video_from_script ⟨scenes, T⟩ image_files audio_files bg_video
        bgm).skipped
        = (scenes.filter
            (fun s => !(sceneHasAssets image_files audio_files s))).map
            Scene.scene_number := by
  unfold create_video_from_script
  dsimp only
  rw [if_neg hne, buildClips_eq]
  dsimp only
  rw [if_neg (by simpa using hsur)]
  dsimp only
  rw [bgVideoStage_duration]
  refine ⟨?_, rfl⟩
  rw [List.map_map]
  rfl

/-- C2: scenes whose image or audio asset is absent or missing on disk are
skipped with a warning naming their scene number and contribute no clip; if
at least one scene survives, the render succeeds and its duration is the sum
of only the surviving scenes' audio durations. -/
theorem missing_asset_scenes_skipped (script : Script)
    (image_files audio_files : ℕ → Option AssetFile)
    (bg_video bgm : Option AssetFile)
    (hne : script.scenes ≠ [])
    (hsur : script.scenes.filter (sceneHasAssets image_files audio_files)
      ≠ []) :
    (create_video_from_script script image_files audio_files bg_video
        bgm).outcome
        = .ok (((script.scenes.filter
            (sceneHasAssets image_files audio_files)).map
            (audioDuration audio_files)).sum) ∧
      (create_video_from_script script image_files audio_files bg_video
        bgm).skipped
        = (script.scenes.filter
            (fun s => !(sceneHasAssets image_files audio_files s))).map
            Scene.scene_number :=
  create_ok_of_survivor script.scenes script.total_duration image_files
    audio_files bg_video bgm hne hsur

/-- Witness for C2: of two scenes, scene 2 lacks an image entry; the render
succeeds with only scene 1 (audio duration 4) and warns about scene 2. -/
theorem missing_asset_scenes_skipped_witness :
    (create_video_from_script ⟨[⟨1, 1, "a"⟩, ⟨2, 1, "b"⟩], 9⟩
        (fun n => if n = 1 then some ⟨true, 0, true⟩ else none)
        (fun _ => some ⟨true, 4, true⟩) none none).outcome
        = .ok ((([⟨1, 1, "a"⟩, ⟨2, 1, "b"⟩] : List Scene).filter
            (sceneHasAssets
              (fun n => if n = 1 then some ⟨true, 0, true⟩ else none)
              (fun _ => some ⟨true, 4, true⟩))).map
            (audioDuration (fun _ => some ⟨true, 4, true⟩))).sum ∧
      (create_video_from_script ⟨[⟨1, 1, "a"⟩, ⟨2, 1, "b"⟩], 9⟩
        (fun n => if n = 1 then some ⟨true, 0, true⟩ else none)
        (fun _ => some ⟨true, 4, true⟩) none none).skipped
        = (([⟨1, 1, "a"⟩, ⟨2, 1, "b"⟩] : List Scene).filter
            (fun s => !(sceneHasAssets
              (fun n => if n = 1 then some ⟨true, 0, true⟩ else none)
              (fun _ => some ⟨true, 4, true⟩) s))).map Scene.scene_number :=
  missing_asset_scenes_skipped ⟨[⟨1, 1, "a"⟩, ⟨2, 1, "b"⟩], 9⟩
    (fun n => if n = 1 then some ⟨true, 0, true⟩ else none)
    (fun _ => some ⟨true, 4, true⟩) none none
    (by decide) (by decide)

/-- C1: when every scene has both assets, every scene clip is timed by its
audio asset, the render succeeds with duration the sum of the audio
durations, and the declared per-scene `duration` fields and the script's
`total_duration` have no effect: replacing them arbitrarily leaves the
result unchanged. -/
theorem timeline_duration_is_audio_sum (script : Script)
    (image_files audio_files : ℕ → Option AssetFile)
    (bg_video bgm : Option AssetFile)
    (hne : script.scenes ≠ [])
    (hall : ∀ s ∈ script.scenes,
      sceneHasAssets image_files audio_files s = true) :
    (buildClips image_files audio_files script.scenes).1
        = script.scenes.map
            (fun s => { duration := audioDuration audio_files s }) ∧
      (create_video_from_script script image_files audio_files bg_video
        bgm).outcome
        = .ok ((script.scenes.map (audioDuration audio_files)).sum) ∧
      ∀ (g : ℕ → ℚ) (T : ℚ),
        (create_video_from_script
          ⟨script.scenes.map
            (fun s => ⟨s.scene_number, g s.scene_number, s.subtitle⟩), T⟩
          image_files audio_files bg_video bgm).outcome
          = .ok ((script.scenes.map (audioDuration audio_files)).sum) := by
  have hfil : script.scenes.filter (sceneHasAssets image_files audio_files)
      = script.scenes := List.filter_eq_self.mpr hall
  refine ⟨?_, ?_, ?_⟩
  · rw [buildClips_eq]
    dsimp only
    rw [hfil]
  · have h := (create_ok_of_survivor script.scenes script.total_duration
      image_files audio_files bg_video bgm hne (by rw [hfil]; exact hne)).1
    rw [hfil] at h
    exact h
  · intro g T
    have hfil2 : (script.scenes.map
        (fun s => (⟨s.scene_number, g s.scene_number, s.subtitle⟩ : Scene))).filter
          (sceneHasAssets image_files audio_files)
        = script.scenes.map
            (fun s => (⟨s.scene_number, g s.scene_number, s.subtitle⟩ : Scene)) := by
      apply List.filter_eq_self.mpr
      intro s hs
      obtain ⟨s₀, hs₀, rfl⟩ := List.mem_map.mp hs
      exact hall s₀ hs₀
    have hne2 : script.scenes.map
        (fun s => (⟨s.scene_number, g s.scene_number, s.subtitle⟩ : Scene)) ≠ [] := by
      simpa using hne
    have h := (create_ok_of_survivor _ T image_files audio_files bg_video bgm
      hne2 (by rw [hfil2]; exact hne2)).1
    rw [hfil2, List.map_map] at h
    exact h

/-- Witness for C1: two scenes with declared durations 99 and 98 and audio
durations 2 and 5; the render reports the audio-derived clips and sum. -/
theorem timeline_duration_is_audio_sum_witness :
    (buildClips (fun _ => some ⟨true, 0, true⟩)
        (fun n => if n = 1 then some ⟨true, 2, true⟩ else some ⟨true, 5, true⟩)
        [⟨1, 99, "x"⟩, ⟨2, 98, "y"⟩]).1
        = ([⟨1, 99, "x"⟩, ⟨2, 98, "y"⟩] : List Scene).map
            (fun s => Clip.mk (audioDuration
              (fun n => if n = 1 then some ⟨true, 2, true⟩
                else some ⟨true, 5, true⟩) s)) ∧
      (create_video_from_script ⟨[⟨1, 99, "x"⟩, ⟨2, 98, "y"⟩], 7⟩
        (fun _ => some ⟨true, 0, true⟩)
        (fun n => if n = 1 then some ⟨true, 2, true⟩ else some ⟨true, 5, true⟩)
        none none).outcome
        = .ok ((([⟨1, 99, "x"⟩, ⟨2, 98, "y"⟩] : List Scene).map
            (audioDuration (fun n => if n = 1 then some ⟨true, 2, true⟩
              else some ⟨true, 5, true⟩))).sum) := by
  have h := timeline_duration_is_audio_sum ⟨[⟨1, 99, "x"⟩, ⟨2, 98, "y"⟩], 7⟩
    (fun _ => some ⟨true, 0, true⟩)
    (fun n => if n = 1 then some ⟨true, 2, true⟩ else some ⟨true, 5, true⟩)
    none none (by decide) (by decide)
  exact ⟨h.1, h.2.1⟩

/-- Counterexample to C5 as stated: a script with no scenes and a script
whose only scene is skipped for missing assets both abort with a fatal
error, but the two user-visible error messages differ (line 132 vs
line 274). -/
theorem empty_vs_all_skipped_distinct_errors :
    (create_video_from_script ⟨[], 0⟩ (fun _ => none) (fun _ => none)
        none none).outcome = .error "台本にシーンがありません" ∧
      (create_video_from_script ⟨[⟨1, 3, "a"⟩], 10⟩ (fun _ => none)
        (fun _ => none) none none).outcome
        = .error "動画クリップが作成されませんでした" ∧
      ("台本にシーンがありません" : String) ≠ "動画クリップが作成されませんでした" :=
  ⟨rfl, rfl, by decide⟩

/-- C5 (amended): an empty scene list and an all-scenes-skipped render both
abort with a fatal error before producing output, but the user-visible
messages differ: the former raises the no-scenes error, the latter the
no-clips error. -/
theorem fatal_before_output (script : Script)
    (image_files audio_files : ℕ → Option AssetFile)
    (bg_video bgm : Option AssetFile) :
    (script.scenes = [] →
      (create_video_from_script script image_files audio_files bg_video
        bgm).outcome = .error "台本にシーンがありません") ∧
      (script.scenes ≠ [] →
        script.scenes.filter (sceneHasAssets image_files audio_files) = [] →
        (create_video_from_script script image_files audio_files bg_video
          bgm).outcome = .error "動画クリップが作成されませんでした") := by
  constructor
  · intro h
    unfold create_video_from_script
    rw [if_pos h]
  · intro hne hfil
    unfold create_video_from_script
    dsimp only
    rw [if_neg hne, buildClips_eq]
    dsimp only
    rw [if_pos (by rw [hfil]; rfl)]

/-- Witness for C5 (amended) at the two concrete inputs of the
counterexample family. -/
theorem fatal_before_output_witness :
    (create_video_from_script ⟨[], 5⟩ (fun _ => some ⟨true, 1, true⟩)
        (fun _ => some ⟨true, 1, true⟩) none none).outcome
        = .error "台本にシーンがありません" ∧
      (create_video_from_script ⟨[⟨2, 1, "b"⟩], 5⟩ (fun _ => none)
        (fun _ => none) none none).outcome
        = .error "動画クリップが作成されませんでした" :=
  ⟨(fatal_before_output ⟨[], 5⟩ (fun _ => some ⟨true, 1, true⟩)
      (fun _ => some ⟨true, 1, true⟩) none none).1 rfl,
    (fatal_before_output ⟨[⟨2, 1, "b"⟩], 5⟩ (fun _ => none) (fun _ => none)
      none none).2 (by decide) (by decide)⟩

/-- The running step counter never decreases. -/
theorem cumulativeSteps_chain (incs : List ℕ) (acc : ℕ) :
    List.Chain' (· ≤ ·) (cumulativeSteps incs acc) := by
  induction incs generalizing acc with
  | nil => simp [cumulativeSteps]
  | cons i is ih =>
    rw [cumulativeSteps]
    apply List.chain'_cons'.mpr
    refine ⟨?_, ih (acc + i)⟩
    intro b hb
    cases is with
    | nil => simp [cumulativeSteps] at hb
    | cons j js =>
      simp only [cumulativeSteps, List.head?_cons, Option.mem_def,
        Option.some.injEq] at hb
      omega

/-- Reported fractions are monotone in the step counter. -/
theorem progressValue_mono (total_steps : ℕ) {a b : ℕ} (h : a ≤ b) :
    progressValue total_steps a ≤ progressValue total_steps b := by
  unfold progressValue
  have : ((a : ℚ)) / total_steps ≤ ((b : ℚ)) / total_steps := by
    gcongr
  exact min_le_min this le_rfl

theorem progressFractions_chain (total_steps : ℕ) (incs : List ℕ) :
    List.Chain' (· ≤ ·) (progressFractions total_steps incs) := by
  unfold progressFractions
  apply List.chain'_map_of_chain' (progressValue total_steps)
  · intro a b hab
    exact progressValue_mono total_steps hab
  · exact cumulativeSteps_chain incs 0

theorem progressFractions_mem_unit (total_steps : ℕ) (incs : List ℕ)
    (q : ℚ) (hq : q ∈ progressFractions total_steps incs) :
    0 ≤ q ∧ q ≤ 1 := by
  unfold progressFractions at hq
  obtain ⟨c, _, rfl⟩ := List.mem_map.mp hq
  unfold progressValue
  constructor
  · apply le_min
    · positivity
    · norm_num
  · exact min_le_right _ _

/-- C9: within one render invocation the sequence of fractions passed to the
progress callback is monotone (non-decreasing, with equal consecutive values
at the zero-increment stage announcements) and every reported fraction lies
in `[0, 1]`. -/
theorem progress_monotone_in_unit (script : Script)
    (image_files audio_files : ℕ → Option AssetFile)
    (bg_video bgm : Option AssetFile) :
    List.Chain' (· ≤ ·)
        (create_video_from_script script image_files audio_files bg_video
          bgm).progress ∧
      ∀ q ∈ (create_video_from_script script image_files audio_files
          bg_video bgm).progress, 0 ≤ q ∧ q ≤ 1 := by
  unfold create_video_from_script
  dsimp only
  split
  · exact ⟨List.chain'_nil, by intro q hq; exact absurd hq (by simp)⟩
  · split
    · exact ⟨progressFractions_chain _ _,
        fun q hq => progressFractions_mem_unit _ _ q hq⟩
    · exact ⟨progressFractions_chain _ _,
        fun q hq => progressFractions_mem_unit _ _ q hq⟩

/-- Witness for C9: the first fraction reported by a one-scene render with
no background layers (step 1 of 3) lies in `[0, 1]`. -/
theorem progress_monotone_in_unit_witness :
    0 ≤ progressValue 3 1 ∧ progressValue 3 1 ≤ 1 :=
  (progress_monotone_in_unit ⟨[⟨1, 3, "a"⟩], 10⟩
      (fun _ => some ⟨true, 1, true⟩) (fun _ => some ⟨true, 2, true⟩)
      none none).2 (progressValue 3 1)
    (by simp [create_video_from_script, buildClips, sceneHasAssets,
      assetPresent, optionalPresent, bgVideoStage, bgmStage,
      progressFractions, cumulativeSteps])

end VideoEditor
